import Mathlib

/-!
Verification of the process supervisor / RPC multiplexer in
`src/bridge/src/ServerManager.ts` (class `ServerManager`) against its
specification.

Modelling conventions:
* JS strings are `List Char`; machine integers do not occur (ids and counters
  are unbounded JS numbers used as `Nat`).
* A JS `Map` is an association list with the `Map.set`/`Map.delete`/`Map.get`
  operations translated below (`jsMapSet`, `jsMapDelete`, `List.lookup`).
* A `PendingRequest`'s resolve/reject closures and its timer are represented by
  a token (a `Nat` allocated from `ServerInstance.nextToken`); every promise
  settlement the code performs is recorded in the model field
  `ServerInstance.settled` as a `(token, Outcome)` pair, in settlement order.
* `Date` timestamps are not modelled (every `MessageLog.timestamp` is `0`);
  no claim depends on wall-clock values.
* Asynchrony (stdout data events, the 30 s timers, process exit) is modelled by
  the explicit event system `CorrEvent`/`stepEvent`: handlers run one at a time
  to completion, exactly the single-threaded event-loop model of the runtime.
-/

set_option autoImplicit false

/-! ## JSON values and `JSON.parse`

`JSON.parse` is a runtime builtin, not repository code; it is modelled here by
a small recursive-descent parser over `List Char` covering null, booleans,
integer numbers (fractions/exponents are not needed by any claim), strings
with simple escapes, arrays and objects. -/

inductive Json where
  | null : Json
  | bool (b : Bool) : Json
  | num (n : Int) : Json
  | str (s : String) : Json
  | arr (elems : List Json) : Json
  | obj (fields : List (String × Json)) : Json

/-- Truthiness of a JSON value under JS coercion rules. -/
def Json.truthy : Json → Bool
  | .null => false
  | .bool b => b
  | .num n => n != 0
  | .str s => s != ""
  | .arr _ => true
  | .obj _ => true

/-- Property access `value.key` on a parsed JSON value. -/
def jsonGet (v : Json) (key : String) : Option Json :=
  match v with
  | .obj fields => fields.lookup key
  | _ => none

def isJsonWs (c : Char) : Bool :=
  c = ' ' || c = '\t' || c = '\n' || c = '\r'

def skipWs : List Char → List Char
  | [] => []
  | c :: cs => if isJsonWs c then skipWs cs else c :: cs

def takeDigits : List Char → List Char × List Char
  | [] => ([], [])
  | c :: cs =>
    if c.isDigit then
      let p := takeDigits cs
      (c :: p.1, p.2)
    else ([], c :: cs)

def digitsToNat : List Char → Nat → Nat
  | [], acc => acc
  | c :: cs, acc => digitsToNat cs (acc * 10 + (c.toNat - '0'.toNat))

/-- Body of a JSON string after the opening quote; `acc` holds the decoded
characters in reverse. -/
def parseStringBody (acc : List Char) : List Char → Option (List Char × List Char)
  | [] => none
  | '"' :: rest => some (acc.reverse, rest)
  | '\\' :: c :: rest =>
    let decoded := if c = 'n' then '\n' else if c = 't' then '\t' else if c = 'r' then '\r' else c
    parseStringBody (decoded :: acc) rest
  | '\\' :: [] => none
  | c :: rest => parseStringBody (c :: acc) rest

mutual

def parseValue : Nat → List Char → Option (Json × List Char)
  | 0, _ => none
  | fuel + 1, input =>
    match skipWs input with
    | [] => none
    | 'n' :: 'u' :: 'l' :: 'l' :: rest => some (.null, rest)
    | 't' :: 'r' :: 'u' :: 'e' :: rest => some (.bool true, rest)
    | 'f' :: 'a' :: 'l' :: 's' :: 'e' :: rest => some (.bool false, rest)
    | '"' :: rest =>
      match parseStringBody [] rest with
      | some (cs, rest') => some (.str (String.mk cs), rest')
      | none => none
    | '[' :: rest =>
      (match skipWs rest with
       | ']' :: rest' => some (.arr [], rest')
       | other => parseElems fuel other [])
    | '{' :: rest =>
      (match skipWs rest with
       | '}' :: rest' => some (.obj [], rest')
       | other => parseFields fuel other [])
    | '-' :: rest =>
      (match takeDigits rest with
       | ([], _) => none
       | (ds, rest') => some (.num (-(digitsToNat ds 0 : Int)), rest'))
    | c :: rest =>
      if c.isDigit then
        let p := takeDigits (c :: rest)
        some (.num (digitsToNat p.1 0), p.2)
      else none

def parseElems : Nat → List Char → List Json → Option (Json × List Char)
  | 0, _, _ => none
  | fuel + 1, input, acc =>
    match parseValue fuel input with
    | none => none
    | some (v, rest) =>
      match skipWs rest with
      | ',' :: rest' => parseElems fuel rest' (v :: acc)
      | ']' :: rest' => some (.arr (v :: acc).reverse, rest')
      | _ => none

def parseFields : Nat → List Char → List (String × Json) → Option (Json × List Char)
  | 0, _, _ => none
  | fuel + 1, input, acc =>
    match skipWs input with
    | '"' :: rest =>
      (match parseStringBody [] rest with
       | none => none
       | some (key, rest1) =>
         match skipWs rest1 with
         | ':' :: rest2 =>
           (match parseValue fuel rest2 with
            | none => none
            | some (v, rest3) =>
              match skipWs rest3 with
              | ',' :: rest4 => parseFields fuel rest4 ((String.mk key, v) :: acc)
              | '}' :: rest4 => some (.obj ((String.mk key, v) :: acc).reverse, rest4)
              | _ => none)
         | _ => none)
    | _ => none

end

/-- Model of `JSON.parse` applied to one line: parse a value and require that
only whitespace remains. Returns `none` where `JSON.parse` would throw. -/
def jsonParse (line : List Char) : Option Json :=
  match parseValue (line.length + 2) line with
  | some (v, rest) => if (skipWs rest).isEmpty then some v else none
  | none => none

/-! ## StreamFramer (`setupStreamHandlers`, stdout data handler)

```
buffer += data.toString();
const lines = buffer.split('\n');
buffer = lines.pop() || '';
for (const line of lines) {
  if (line.trim()) {
    try { const message = JSON.parse(line); this.handleStdoutMessage(instance, message); }
    catch (error) { logger.error(...); }
  }
}
```
-/

/-- JS `String.prototype.split('\n')`: the list of fragments, always
non-empty; `"".split('\n') = [""]`. -/
def jsSplitNl : List Char → List (List Char)
  | [] => [[]]
  | c :: cs =>
    if c = '\n' then [] :: jsSplitNl cs
    else
      match jsSplitNl cs with
      | [] => [[c]]
      | l :: ls => (c :: l) :: ls

/-- The same split presented as (complete fragments, trailing fragment); a
proof-friendly repackaging of `jsSplitNl` (see `jsSplitNl_eq_splitCR`). -/
def splitCR : List Char → List (List Char) × List Char
  | [] => ([], [])
  | c :: cs =>
    let p := splitCR cs
    if c = '\n' then ([] :: p.1, p.2) else
      match p.1 with
      | [] => ([], c :: p.2)
      | l :: ls => ((c :: l) :: ls, p.2)

/-- `line.trim()` is falsy exactly when the line is all whitespace. -/
def isBlankLine (line : List Char) : Bool :=
  line.all isJsonWs

/-- Framer state: the accumulator string plus every message delivered so far
(to `handleStdoutMessage`), oldest first. -/
structure Framer (α : Type) where
  buffer : List Char
  delivered : List α

def emptyFramer {α : Type} : Framer α := ⟨[], []⟩

/-- One `data` event on stdout, for a parser `parse` (`jsonParse` in the
program): append the chunk, split on newline, pop the last fragment back into
the accumulator, and deliver each remaining non-blank fragment that parses;
a fragment that fails to parse is logged and dropped. -/
def onData {α : Type} (parse : List Char → Option α) (fr : Framer α)
    (chunk : List Char) : Framer α :=
  let parts := jsSplitNl (fr.buffer ++ chunk)
  { buffer := parts.getLastD [],
    delivered := fr.delivered ++
      parts.dropLast.filterMap (fun line => if isBlankLine line then none else parse line) }

def runFramer {α : Type} (parse : List Char → Option α) (fr : Framer α)
    (chunks : List (List Char)) : Framer α :=
  chunks.foldl (onData parse) fr

/-! ## JS `Map` operations (association lists) -/

/-- `Map.set(k, v)`: update the entry in place if the key is present,
otherwise append it. -/
def jsMapSet {κ β : Type} [BEq κ] (m : List (κ × β)) (k : κ) (v : β) : List (κ × β) :=
  match m with
  | [] => [(k, v)]
  | p :: t => if p.1 == k then (k, v) :: t else p :: jsMapSet t k v

/-- `Map.delete(k)`: remove the entry with key `k` (a no-op when absent). -/
def jsMapDelete {κ β : Type} [BEq κ] (m : List (κ × β)) (k : κ) : List (κ × β) :=
  match m with
  | [] => []
  | p :: t => if p.1 == k then t else p :: jsMapDelete t k

/-! ## Data model (`src/bridge/src/types.ts`) -/

structure ServerConfig where
  name : String
  displayName : String
  command : String
  args : List String
  cwd : String
  capabilities : List String

/-- `JSONRPCRequest`/`JSONRPCResponse` and the untyped messages flowing through
`handleStdoutMessage`/`logMessage`, as one record: each field is present
(`some`) or absent (`none`). -/
structure JSONRPCError where
  code : Int
  message : String
  data : Option Json := none

structure JSONRPCMessage where
  jsonrpc : String := "2.0"
  id : Option Nat := none
  method : Option String := none
  params : Option Json := none
  result : Option Json := none
  error : Option JSONRPCError := none

inductive LogDirection where
  | request
  | response
deriving DecidableEq

structure MessageLog where
  timestamp : Nat
  direction : LogDirection
  message : JSONRPCMessage
  messageType : String

inductive ServerStatus where
  | initializing
  | ready
  | error
  | stopped
deriving DecidableEq

/-- Classification of the reason a `PendingRequest` was rejected, after the
`Error` messages the code constructs. -/
inductive RejectReason where
  | timeout (serverName : String)            -- `Request timeout for ${name}`
  | writeFailed (serverName : String) (detail : String)
  | unexpectedExit (serverName : String)     -- `Server ${name} exited unexpectedly`
deriving DecidableEq

/-- How a `PendingRequest`'s promise was settled. -/
inductive Outcome where
  | fulfilled (message : JSONRPCMessage)
  | rejected (reason : RejectReason)

/-- `ServerInstance`: the supervisor's record for one worker. The OS process
and pipe handles are not modelled; `settled` and `nextToken` are model fields
observing promise settlements (see the header comment). -/
structure ServerInstance where
  name : String
  config : ServerConfig
  status : ServerStatus
  messageBuffer : List MessageLog
  pendingRequests : List (Nat × Nat)
  requestIdCounter : Nat
  serverCapabilities : Option Json := none
  settled : List (Nat × Outcome) := []
  nextToken : Nat := 0

/-! ## MessageRecorder (`logMessage`) -/

def MAX_MESSAGES : Nat := 50

/-- Type label, by the code's precedence: a truthy `method` field, else a
present `result`, else a present `error`, else `"unknown"`. -/
def classifyMessage (message : JSONRPCMessage) : String :=
  if message.method.getD "" != "" then message.method.getD ""
  else if message.result.isSome then "response"
  else if message.error.isSome then "error"
  else "unknown"

def logEntry (direction : LogDirection) (message : JSONRPCMessage) : MessageLog :=
  { timestamp := 0, direction := direction, message := message,
    messageType := classifyMessage message }

/-- `logMessage`: push the entry, then `shift()` the oldest one off the front
when the buffer exceeds `MAX_MESSAGES`. -/
def logMessage (buffer : List MessageLog) (direction : LogDirection)
    (message : JSONRPCMessage) : List MessageLog :=
  let pushed := buffer ++ [logEntry direction message]
  if pushed.length > MAX_MESSAGES then pushed.drop 1 else pushed

/-! ## RequestCorrelator (instance-level handlers) -/

/-- `handleStdoutMessage`: log the message; if it carries a defined `id`
matching a pending request, cancel the timer, delete the entry and resolve the
promise with the whole message (success and protocol-error payloads alike). -/
def handleStdoutMessage (server : ServerInstance) (message : JSONRPCMessage) :
    ServerInstance :=
  let server := { server with
    messageBuffer := logMessage server.messageBuffer .response message }
  match message.id with
  | none => server
  | some id =>
    match server.pendingRequests.lookup id with
    | none => server
    | some tok =>
      { server with
        pendingRequests := jsMapDelete server.pendingRequests id,
        settled := server.settled ++ [(tok, .fulfilled message)] }

/-- The 30 s timer registered in `sendRequestInternal` fires for `id`: delete
the entry and reject with a timeout error. The timer can only fire while its
entry is still present, because every other settlement path runs
`clearTimeout` when it removes the entry; a fired timer for an absent entry is
therefore modelled as impossible (no-op). -/
def timeoutFires (server : ServerInstance) (id : Nat) : ServerInstance :=
  match server.pendingRequests.lookup id with
  | none => server
  | some tok =>
    { server with
      pendingRequests := jsMapDelete server.pendingRequests id,
      settled := server.settled ++ [(tok, .rejected (.timeout server.name))] }

/-- The `process.on('exit')` handler: mark the instance stopped, reject every
pending request with an unexpected-exit error (clearing each timer), and clear
the pending map. -/
def handleProcessExit (server : ServerInstance) : ServerInstance :=
  { server with
    status := .stopped,
    settled := server.settled ++
      server.pendingRequests.map (fun p => (p.2, .rejected (.unexpectedExit server.name))),
    pendingRequests := [] }

/-- The `process.on('error')` handler. -/
def handleProcessError (server : ServerInstance) : ServerInstance :=
  { server with status := .error }

/-- `sendRequestInternal`, up to its registration effects: assign an id from
the counter when the request has none, arm the 30 s timer, register the
pending entry (keyed by the id, holding a fresh token standing for the
promise's resolve/reject and the timer handle) and log the outgoing request.
Returns the instance and the id used. The later settlement of the promise is
one of the `CorrEvent`s below. -/
def sendRequestInternal (server : ServerInstance) (request : JSONRPCMessage) :
    ServerInstance × Nat :=
  let id := request.id.getD server.requestIdCounter
  let server := if request.id.isSome then server
    else { server with requestIdCounter := server.requestIdCounter + 1 }
  let request := { request with id := some id }
  let tok := server.nextToken
  ({ server with
      pendingRequests := jsMapSet server.pendingRequests id tok,
      nextToken := tok + 1,
      messageBuffer := logMessage server.messageBuffer .request request }, id)

/-! ## Event system for one instance

The runtime is single-threaded and event-driven: each of these handlers runs
to completion before the next event is dispatched. -/

inductive CorrEvent where
  | register (request : JSONRPCMessage)  -- a caller runs `sendRequestInternal`
  | inbound (message : JSONRPCMessage)   -- a framed stdout message is dispatched
  | timerFires (id : Nat)                -- the 30 s timer for `id` expires
  | procExit                             -- the process `exit` event

/-- Dispatch one event; `none` means the event cannot occur in that state
(a timer firing while not armed, or a registration whose id would collide with
a live entry -- ids come from the monotone per-instance counter and are never
reused, `spec §4.3`). -/
def stepEvent (server : ServerInstance) : CorrEvent → Option ServerInstance
  | .register request =>
    let id := request.id.getD server.requestIdCounter
    if (server.pendingRequests.lookup id).isSome then none
    else some (sendRequestInternal server request).1
  | .inbound message => some (handleStdoutMessage server message)
  | .timerFires id =>
    if (server.pendingRequests.lookup id).isSome then some (timeoutFires server id)
    else none
  | .procExit => some (handleProcessExit server)

def runEvents (server : ServerInstance) : List CorrEvent → Option ServerInstance
  | [] => some server
  | e :: es =>
    match stepEvent server e with
    | none => none
    | some s => runEvents s es

/-- A freshly created instance, as built in `startServer` before the
handshake. -/
def createInstance (name : String) (config : ServerConfig) : ServerInstance :=
  { name := name, config := config, status := .initializing,
    messageBuffer := [], pendingRequests := [], requestIdCounter := 1,
    serverCapabilities := none, settled := [], nextToken := 0 }

/-! ## ProcessSupervisor (`ServerManager`) -/

structure ManagerState where
  servers : List (String × ServerInstance)
  configs : List (String × ServerConfig)

/-- The errors `startServer`/`sendRequest` can throw in the modelled paths.
Launch failures (`spawn` itself failing) are not modelled: no claim concerns
them, and `spawn` is treated as succeeding. -/
inductive StartError where
  | configNotFound (name : String)       -- `Server configuration not found: ${name}`
  | initializeFailed (message : String)  -- `Initialize failed: ${error.message}`
  | requestTimeout (name : String)       -- the rethrown `Request timeout for ${name}`
deriving DecidableEq

/-- The `initialize` request built in `startServer` (`id` comes from
`requestIdCounter++`, which is `1` on a fresh instance). -/
def initializeRequest (id : Nat) : JSONRPCMessage :=
  { jsonrpc := "2.0", id := some id, method := some "initialize",
    params := some (Json.obj
      [("protocolVersion", Json.str "2024-11-05"),
       ("capabilities", Json.obj []),
       ("clientInfo", Json.obj
         [("name", Json.str "mcp-bridge"), ("version", Json.str "1.0.0")])]) }

/-- The uncorrelated `initialized` notification: no `id` field. -/
def initializedNotification : JSONRPCMessage :=
  { jsonrpc := "2.0", method := some "notifications/initialized" }

/-- `initResponse.result?.capabilities`, kept only when truthy (the code's
`if (initResponse.result?.capabilities)` guard). -/
def resultCapabilities (reply : JSONRPCMessage) : Option Json :=
  match reply.result with
  | none => none
  | some r =>
    match jsonGet r "capabilities" with
    | none => none
    | some c => if c.truthy then some c else none

/-- The body of `startServer` past the already-running check: look up the
config (throwing when absent), spawn the worker, create and register a fresh
instance, and run the handshake. `initReply` is the worker's single stdout
message in reply to `initialize`; when it does not correlate with the pending
id, the 30 s timer fires, the promise rejects with the timeout error, and the
`catch` block marks the instance `error` and rethrows. -/
def startServerLaunch (mgr : ManagerState) (name : String)
    (initReply : JSONRPCMessage) : ManagerState × Except StartError Unit :=
  match mgr.configs.lookup name with
  | none => (mgr, .error (.configNotFound name))
  | some config =>
    let inst := createInstance name config
    let initRequest := initializeRequest inst.requestIdCounter
    let inst := { inst with requestIdCounter := inst.requestIdCounter + 1 }
    let inst := (sendRequestInternal inst initRequest).1
    let inst := handleStdoutMessage inst initReply
    if initReply.id = initRequest.id then
      match initReply.error with
      | some err =>
        let inst := { inst with status := .error }
        ({ mgr with servers := jsMapSet mgr.servers name inst },
          .error (.initializeFailed ("Initialize failed: " ++ err.message)))
      | none =>
        let inst :=
          match resultCapabilities initReply with
          | some caps => { inst with serverCapabilities := some caps }
          | none => inst
        let inst := { inst with
          messageBuffer := logMessage inst.messageBuffer .request initializedNotification }
        let inst := { inst with status := .ready }
        ({ mgr with servers := jsMapSet mgr.servers name inst }, .ok ())
    else
      let inst := timeoutFires inst 1
      let inst := { inst with status := .error }
      ({ mgr with servers := jsMapSet mgr.servers name inst },
        .error (.requestTimeout name))

/-- `startServer`: a no-op when an instance for `name` is already `ready`;
otherwise launch and handshake. -/
def startServer (mgr : ManagerState) (name : String)
    (initReply : JSONRPCMessage) : ManagerState × Except StartError Unit :=
  match mgr.servers.lookup name with
  | some server =>
    if server.status = .ready then (mgr, .ok ())
    else startServerLaunch mgr name initReply
  | none => startServerLaunch mgr name initReply

/-- `sendRequest`: auto-start when the instance is absent or not `ready`, then
register the request on the (possibly fresh) instance via
`sendRequestInternal`. Returns the id the request was registered under; its
response/timeout is a later `CorrEvent`. The `none` fallthrough after a
successful start is unreachable (the code asserts it with `!`). -/
def sendRequest (mgr : ManagerState) (name : String) (request : JSONRPCMessage)
    (initReply : JSONRPCMessage) : ManagerState × Except StartError Nat :=
  let needStart :=
    match mgr.servers.lookup name with
    | none => true
    | some server => decide (server.status ≠ .ready)
  if needStart then
    match startServer mgr name initReply with
    | (mgr1, .error e) => (mgr1, .error e)
    | (mgr1, .ok ()) =>
      match mgr1.servers.lookup name with
      | some server =>
        let p := sendRequestInternal server request
        ({ mgr1 with servers := jsMapSet mgr1.servers name p.1 }, .ok p.2)
      | none => (mgr1, .error (.configNotFound name))
  else
    match mgr.servers.lookup name with
    | some server =>
      let p := sendRequestInternal server request
      ({ mgr with servers := jsMapSet mgr.servers name p.1 }, .ok p.2)
    | none => (mgr, .error (.configNotFound name))

/-- JS `Array.prototype.slice(start)` for an integer `start`: negative values
count from the end (clamped at 0), non-negative values from the front. Note
`slice(-0)` is `slice(0)`: the whole array. -/
def jsSlice {β : Type} (xs : List β) (start : Int) : List β :=
  if start < 0 then xs.drop (xs.length - (-start).toNat)
  else xs.drop (min start.toNat xs.length)

/-- `getMessages(name, limit = 50)`: `messageBuffer.slice(-limit)`, or `[]`
for an unknown name. The JS default for `limit` is 50. -/
def getMessages (mgr : ManagerState) (name : String) (limit : Nat) :
    List MessageLog :=
  match mgr.servers.lookup name with
  | none => []
  | some server => jsSlice server.messageBuffer (-(limit : Int))

/-- `getServerStatus`: an absent instance reads as `stopped`. -/
def getServerStatus (mgr : ManagerState) (name : String) : ServerStatus :=
  match mgr.servers.lookup name with
  | none => .stopped
  | some server => server.status

/-- `getServerCapabilities` (`server?.serverCapabilities || null`; the stored
capability value is always truthy because `resultCapabilities` filters, so the
`||` is the plain option). -/
def getServerCapabilities (mgr : ManagerState) (name : String) : Option Json :=
  match mgr.servers.lookup name with
  | none => none
  | some server => server.serverCapabilities

/-- The observable result of `stopServer` at the moment its promise resolves:
the manager state, the removed instance's state at that moment (its closures
stay live), and whether a process-exit event is still outstanding (the
`SIGKILL` escalation path, whose exit event fires only after `stop()` has
resolved). -/
structure StopResult where
  state : ManagerState
  resolvedInstance : Option ServerInstance
  deferredExit : Bool

/-- `stopServer(name)`: `kill('SIGTERM')`, a 1 s grace wait (during which, if
the process exits, its `exit` handler runs and rejects the pending requests),
an escalation to `kill('SIGKILL')` when the status is still not `stopped`, and
removal of the record. `exitsDuringGrace` is the environment's behaviour: did
the process exit inside the grace window? -/
def stopServer (mgr : ManagerState) (name : String) (exitsDuringGrace : Bool) :
    StopResult :=
  match mgr.servers.lookup name with
  | none => ⟨mgr, none, false⟩
  | some server =>
    let server1 := if exitsDuringGrace then handleProcessExit server else server
    let deferred : Bool := if server1.status = .stopped then false else true
    ⟨{ mgr with servers := jsMapDelete mgr.servers name }, some server1, deferred⟩

/-- The instance state after the deferred exit event (if any) has fired. -/
def afterDeferredExit (r : StopResult) : Option ServerInstance :=
  r.resolvedInstance.map (fun s => if r.deferredExit then handleProcessExit s else s)

/-! ## Concrete data used by the witnesses -/

def calcConfig : ServerConfig :=
  { name := "calculator", displayName := "Calculator", command := "node",
    args := ["dist/index.js"], cwd := "servers/calculator",
    capabilities := ["tools"] }

/-- A successful `initialize` reply carrying a capability set. -/
def okInitReply : JSONRPCMessage :=
  { jsonrpc := "2.0", id := some 1,
    result := some (Json.obj [("capabilities", Json.obj [("tools", Json.obj [])])]) }

/-- An `initialize` reply carrying a protocol-level error. -/
def errInitReply : JSONRPCMessage :=
  { jsonrpc := "2.0", id := some 1,
    error := some { code := -32600, message := "unsupported protocol" } }

def toolsListRequest : JSONRPCMessage :=
  { jsonrpc := "2.0", method := some "tools/list" }

def logA : MessageLog := logEntry .request toolsListRequest

def logB : MessageLog :=
  logEntry .response { jsonrpc := "2.0", id := some 1, result := some (Json.obj []) }

def c8Server : ServerInstance :=
  { name := "calculator", config := calcConfig, status := .ready,
    messageBuffer := [logA, logB], pendingRequests := [], requestIdCounter := 2 }

def c8Mgr : ManagerState :=
  { servers := [("calculator", c8Server)], configs := [("calculator", calcConfig)] }

/-- An instance with one in-flight request (id 5, token 0). -/
def c6Server : ServerInstance :=
  { name := "weather", config := calcConfig, status := .ready,
    messageBuffer := [], pendingRequests := [(5, 0)], requestIdCounter := 6,
    nextToken := 1 }

/-- A response that carries a protocol-level error payload for id 5. -/
def errorReply5 : JSONRPCMessage :=
  { jsonrpc := "2.0", id := some 5,
    error := some { code := -32601, message := "Method not found" } }

def c2Mgr : ManagerState :=
  { servers := [("weather", c6Server)], configs := [("weather", calcConfig)] }

def c5Mgr : ManagerState :=
  { servers := [], configs := [("calculator", calcConfig)] }

def c9Old : ServerInstance :=
  { name := "calculator", config := calcConfig, status := .stopped,
    messageBuffer := [logA, logB], pendingRequests := [], requestIdCounter := 9,
    serverCapabilities := some (Json.obj []), nextToken := 4 }

def c9Mgr : ManagerState :=
  { servers := [("calculator", c9Old)], configs := [("calculator", calcConfig)] }

def c10Mgr : ManagerState :=
  { servers := [("calculator", c9Old)], configs := [] }

def c1Trace : List CorrEvent :=
  [.register toolsListRequest,
   .inbound { jsonrpc := "2.0", id := some 1, result := some (Json.obj []) },
   .register { jsonrpc := "2.0", method := some "tools/call" },
   .procExit]

def c1Final : ServerInstance :=
  (runEvents (createInstance "calculator" calcConfig) c1Trace).getD
    (createInstance "calculator" calcConfig)

/-- The handshake-failed instance `startServerLaunch` registers (computed
form, established by `startServerLaunch_spec`). -/
def handshakeErrorInstance (name : String) (config : ServerConfig)
    (initReply : JSONRPCMessage) : ServerInstance :=
  { name := name, config := config, status := .error,
    messageBuffer := [logEntry .request (initializeRequest 1), logEntry .response initReply],
    pendingRequests := [], requestIdCounter := 2, serverCapabilities := none,
    settled := [(0, .fulfilled initReply)], nextToken := 1 }

/-- The ready instance `startServerLaunch` registers on handshake success
(computed form, established by `startServerLaunch_spec`). -/
def handshakeReadyInstance (name : String) (config : ServerConfig)
    (initReply : JSONRPCMessage) : ServerInstance :=
  { name := name, config := config, status := .ready,
    messageBuffer := [logEntry .request (initializeRequest 1), logEntry .response initReply,
      logEntry .request initializedNotification],
    pendingRequests := [], requestIdCounter := 2,
    serverCapabilities := resultCapabilities initReply,
    settled := [(0, .fulfilled initReply)], nextToken := 1 }

/-! ## Association-list lemmas -/

theorem lookup_eq_none_of_not_mem_keys {κ β : Type} [BEq κ] [LawfulBEq κ]
    {m : List (κ × β)} {k : κ} (h : k ∉ m.map Prod.fst) : m.lookup k = none := by
  induction m with
  | nil => rfl
  | cons p t ih =>
    simp only [List.map_cons, List.mem_cons, not_or] at h
    simp only [List.lookup]
    rw [beq_false_of_ne h.1]
    exact ih h.2

theorem not_mem_keys_of_lookup_eq_none {κ β : Type} [BEq κ] [LawfulBEq κ]
    {m : List (κ × β)} {k : κ} (h : m.lookup k = none) : k ∉ m.map Prod.fst := by
  induction m with
  | nil => simp
  | cons p t ih =>
    simp only [List.lookup] at h
    cases hk : k == p.1 with
    | true => rw [hk] at h; exact absurd h (by simp)
    | false =>
      rw [hk] at h
      simp only [List.map_cons, List.mem_cons, not_or]
      refine ⟨fun he => ?_, ih h⟩
      rw [he] at hk
      simp at hk
    
theorem mem_of_lookup_eq_some {κ β : Type} [BEq κ] [LawfulBEq κ]
    {m : List (κ × β)} {k : κ} {v : β} (h : m.lookup k = some v) : (k, v) ∈ m := by
  induction m with
  | nil => exact absurd h (by simp [List.lookup])
  | cons p t ih =>
    simp only [List.lookup] at h
    cases hk : k == p.1 with
    | true =>
      rw [hk] at h
      have hkeq : k = p.1 := eq_of_beq hk
      have hv : p.2 = v := by simpa using h
      rw [← hv, hkeq]
      simp
    | false =>
      rw [hk] at h
      exact List.mem_cons_of_mem _ (ih h)

theorem jsMapSet_of_lookup_none {κ β : Type} [BEq κ] [LawfulBEq κ]
    {m : List (κ × β)} {k : κ} (v : β) (h : m.lookup k = none) :
    jsMapSet m k v = m ++ [(k, v)] := by
  induction m with
  | nil => rfl
  | cons p t ih =>
    simp only [List.lookup] at h
    cases hk : k == p.1 with
    | true => rw [hk] at h; exact absurd h (by simp)
    | false =>
      rw [hk] at h
      have hp : (p.1 == k) = false := by
        refine beq_false_of_ne fun he => ?_
        rw [he] at hk
        simp at hk
      simp [jsMapSet, hp, ih h]

theorem lookup_jsMapSet_self {κ β : Type} [BEq κ] [LawfulBEq κ]
    (m : List (κ × β)) (k : κ) (v : β) : (jsMapSet m k v).lookup k = some v := by
  induction m with
  | nil => simp [jsMapSet, List.lookup]
  | cons p t ih =>
    cases hp : p.1 == k with
    | true => simp [jsMapSet, hp, List.lookup]
    | false =>
      have hk : (k == p.1) = false := by
        refine beq_false_of_ne fun he => ?_
        rw [he] at hp
        simp at hp
      simp [jsMapSet, hp, List.lookup, hk, ih]

theorem jsMapDelete_sublist {κ β : Type} [BEq κ] (m : List (κ × β)) (k : κ) :
    (jsMapDelete m k).Sublist m := by
  induction m with
  | nil => simp [jsMapDelete]
  | cons p t ih =>
    cases hp : p.1 == k with
    | true =>
      have hd : jsMapDelete (p :: t) k = t := by simp [jsMapDelete, hp]
      rw [hd]
      exact List.sublist_cons_self p t
    | false => simpa [jsMapDelete, hp] using ih.cons₂ p

theorem not_mem_jsMapDelete_of_keys_nodup {κ β : Type} [BEq κ] [LawfulBEq κ]
    {m : List (κ × β)} (hnd : (m.map Prod.fst).Nodup) (k : κ) (v : β) :
    (k, v) ∉ jsMapDelete m k := by
  induction m with
  | nil => simp [jsMapDelete]
  | cons p t ih =>
    simp only [List.map_cons, List.nodup_cons] at hnd
    cases hp : p.1 == k with
    | true =>
      have hk : p.1 = k := eq_of_beq hp
      have hd : jsMapDelete (p :: t) k = t := by simp [jsMapDelete, hp]
      rw [hd]
      intro hmem
      exact hnd.1 (by simpa [hk] using List.mem_map_of_mem Prod.fst hmem)
    | false =>
      have hd : jsMapDelete (p :: t) k = p :: jsMapDelete t k := by
        simp [jsMapDelete, hp]
      rw [hd]
      intro hmem
      rcases List.mem_cons.mp hmem with he | hmem'
      · have hk : p.1 = k := by rw [← he]
        rw [hk] at hp
        simp at hp
      · exact ih hnd.2 hmem'

theorem lookup_jsMapDelete_self {κ β : Type} [BEq κ] [LawfulBEq κ]
    {m : List (κ × β)} (hnd : (m.map Prod.fst).Nodup) (k : κ) :
    (jsMapDelete m k).lookup k = none := by
  by_cases h : (jsMapDelete m k).lookup k = none
  · exact h
  · rcases Option.ne_none_iff_exists'.mp h with ⟨v, hv⟩
    exact absurd (mem_of_lookup_eq_some hv) (not_mem_jsMapDelete_of_keys_nodup hnd k v)

/-! ## MessageRecorder lemmas -/

theorem foldl_push_trim {β : Type} (cap : Nat) (hcap : 1 ≤ cap) (es : List β) :
    es.foldl (fun b e =>
        if (b ++ [e]).length > cap then (b ++ [e]).drop 1 else b ++ [e]) []
      = es.drop (es.length - cap) := by
  induction es using List.reverseRecOn with
  | nil => simp
  | append_singleton es e ih =>
    simp only [List.foldl_append, List.foldl_cons, List.foldl_nil, ih]
    have hlen1 : (es.drop (es.length - cap) ++ [e]).length
        = es.length - (es.length - cap) + 1 := by simp
    by_cases h : es.length < cap
    · have h1 : es.length - cap = 0 := by omega
      rw [if_neg (by rw [hlen1]; omega)]
      have h2 : (es ++ [e]).length - cap = 0 := by simp; omega
      rw [h2, List.drop_zero, h1, List.drop_zero]
    · push_neg at h
      have hdlen : (es.drop (es.length - cap)).length = cap := by
        rw [List.length_drop]; omega
      rw [if_pos (by rw [hlen1]; omega)]
      have hm : (es ++ [e]).length - cap = (es.length - cap) + 1 := by
        simp; omega
      rw [hm, List.drop_append_eq_append_drop, List.drop_append_eq_append_drop,
        List.drop_drop, hdlen]
      have e1 : 1 - cap = 0 := by omega
      have e2 : es.length - cap + 1 - es.length = 0 := by omega
      simp [e1, e2, Nat.add_comm]

/-- Claim C4: for every instance and every sequence of logged messages, the
message log holds at most 50 entries at all times: each append is followed by
evicting the oldest entry when the length exceeds 50, so after more than 50
writes exactly the 50 most recent entries remain, in chronological order. -/
theorem C4_log_bounded_last_fifty (writes : List (LogDirection × JSONRPCMessage)) :
    writes.foldl (fun b w => logMessage b w.1 w.2) []
      = (writes.map (fun w => logEntry w.1 w.2)).drop (writes.length - MAX_MESSAGES)
    ∧ (writes.foldl (fun b w => logMessage b w.1 w.2) []).length
        = min writes.length MAX_MESSAGES := by
  have hfold : writes.foldl (fun b w => logMessage b w.1 w.2) []
      = (writes.map (fun w => logEntry w.1 w.2)).foldl
          (fun b e => if (b ++ [e]).length > MAX_MESSAGES then (b ++ [e]).drop 1
            else b ++ [e]) [] := by
    rw [List.foldl_map]
    rfl
  rw [hfold, foldl_push_trim MAX_MESSAGES (by decide) _]
  refine ⟨by rw [List.length_map], ?_⟩
  rw [List.length_drop, List.length_map]
  have h50 : MAX_MESSAGES = 50 := rfl
  rw [h50]
  omega

/-- Claim C6: for a registered request whose 30 s timer fires, the pending
entry is removed, the caller is rejected with a timeout-classified error, and
the instance's status (and log) are unchanged; a response for that id arriving
after the timeout finds no pending entry and is a no-op apart from being
recorded in the log. -/
theorem C6_timeout_rejects_and_late_response_ignored
    (server : ServerInstance) (id tok : Nat)
    (h : server.pendingRequests.lookup id = some tok) :
    (timeoutFires server id).pendingRequests = jsMapDelete server.pendingRequests id
    ∧ (timeoutFires server id).settled
        = server.settled ++ [(tok, .rejected (.timeout server.name))]
    ∧ (timeoutFires server id).status = server.status
    ∧ (timeoutFires server id).messageBuffer = server.messageBuffer
    ∧ ((server.pendingRequests.map Prod.fst).Nodup →
        (timeoutFires server id).pendingRequests.lookup id = none
        ∧ ∀ message : JSONRPCMessage, message.id = some id →
            (handleStdoutMessage (timeoutFires server id) message).pendingRequests
                = (timeoutFires server id).pendingRequests
            ∧ (handleStdoutMessage (timeoutFires server id) message).settled
                = (timeoutFires server id).settled
            ∧ (handleStdoutMessage (timeoutFires server id) message).messageBuffer
                = logMessage (timeoutFires server id).messageBuffer .response message) := by
  have ht : timeoutFires server id = { server with
      pendingRequests := jsMapDelete server.pendingRequests id,
      settled := server.settled ++ [(tok, .rejected (.timeout server.name))] } := by
    rw [timeoutFires, h]
  refine ⟨by rw [ht], by rw [ht], by rw [ht], by rw [ht], fun hnd => ?_⟩
  have hlk : (timeoutFires server id).pendingRequests.lookup id = none := by
    rw [ht]
    exact lookup_jsMapDelete_self hnd id
  refine ⟨hlk, fun message hmid => ?_⟩
  rw [handleStdoutMessage]
  simp [hmid, hlk]

/-- Claim C7: an inbound message whose defined id matches a pending request
fulfills (resolves) that request with the whole message, whether it carries a
success result or a protocol-level error payload; delivery of a response never
adds a rejection. -/
theorem C7_matching_response_always_fulfills
    (server : ServerInstance) (message : JSONRPCMessage) (id tok : Nat)
    (hmid : message.id = some id)
    (h : server.pendingRequests.lookup id = some tok) :
    (handleStdoutMessage server message).settled
        = server.settled ++ [(tok, .fulfilled message)]
    ∧ (handleStdoutMessage server message).pendingRequests
        = jsMapDelete server.pendingRequests id
    ∧ ∀ (tok' : Nat) (reason : RejectReason),
        (tok', Outcome.rejected reason) ∈ (handleStdoutMessage server message).settled
        → (tok', Outcome.rejected reason) ∈ server.settled := by
  have hh : handleStdoutMessage server message = { server with
      messageBuffer := logMessage server.messageBuffer .response message,
      pendingRequests := jsMapDelete server.pendingRequests id,
      settled := server.settled ++ [(tok, .fulfilled message)] } := by
    rw [handleStdoutMessage]
    simp only [hmid, h]
  refine ⟨by rw [hh], by rw [hh], fun tok' reason hmem => ?_⟩
  rw [hh] at hmem
  simp only [List.mem_append, List.mem_singleton] at hmem
  rcases hmem with hmem | he
  · exact hmem
  · exact absurd he (by simp)

/-- Claim C8: `getMessages(name, 0)` returns the whole log (the `slice(-0)`
degenerate case), and for `limit > 0` it returns the most recent
`min(limit, length)` entries, newest last; `getMessages` is a pure read. -/
theorem C8_getMessages_suffix (mgr : ManagerState) (name : String)
    (server : ServerInstance) (h : mgr.servers.lookup name = some server) :
    getMessages mgr name 0 = server.messageBuffer
    ∧ ∀ limit : Nat, 0 < limit →
        getMessages mgr name limit
          = server.messageBuffer.drop (server.messageBuffer.length - limit)
        ∧ (getMessages mgr name limit).length
            = min limit server.messageBuffer.length := by
  have h0 : getMessages mgr name 0 = server.messageBuffer := by
    rw [getMessages, h]
    simp [jsSlice]
  refine ⟨h0, fun limit hl => ?_⟩
  have hslice : getMessages mgr name limit
      = server.messageBuffer.drop (server.messageBuffer.length - limit) := by
    simp only [getMessages, h]
    unfold jsSlice
    rw [if_pos (by omega)]
    simp
  refine ⟨hslice, ?_⟩
  rw [hslice, List.length_drop]
  omega

/-- Witness for `C4_log_bounded_last_fifty` is not needed (no hypotheses);
witness for C6 at a concrete instance: id 5 pending, timer fires, late
response ignored. -/
theorem C6_witness :
    c6Server.pendingRequests.lookup 5 = some 0
    ∧ (timeoutFires c6Server 5).settled
        = c6Server.settled ++ [(0, .rejected (.timeout c6Server.name))]
    ∧ (timeoutFires c6Server 5).status = c6Server.status :=
  ⟨rfl, (C6_timeout_rejects_and_late_response_ignored c6Server 5 0 rfl).2.1,
    (C6_timeout_rejects_and_late_response_ignored c6Server 5 0 rfl).2.2.1⟩

theorem C7_witness :
    errorReply5.id = some 5
    ∧ c6Server.pendingRequests.lookup 5 = some 0
    ∧ (handleStdoutMessage c6Server errorReply5).settled
        = c6Server.settled ++ [(0, .fulfilled errorReply5)] :=
  ⟨rfl, rfl,
    (C7_matching_response_always_fulfills c6Server errorReply5 5 0 rfl rfl).1⟩

theorem C8_witness :
    c8Mgr.servers.lookup "calculator" = some c8Server
    ∧ getMessages c8Mgr "calculator" 0 = c8Server.messageBuffer
    ∧ getMessages c8Mgr "calculator" 1
        = c8Server.messageBuffer.drop (c8Server.messageBuffer.length - 1) :=
  ⟨rfl, (C8_getMessages_suffix c8Mgr "calculator" c8Server rfl).1,
    ((C8_getMessages_suffix c8Mgr "calculator" c8Server rfl).2 1 (by norm_num)).1⟩

/-! ## StreamFramer lemmas -/

/-- Proof device: how the (complete, remainder) split of a concatenation is
assembled from the splits of its parts. -/
def framerGlue (x y : List (List Char) × List Char) :
    List (List Char) × List Char :=
  match y.1 with
  | [] => (x.1, x.2 ++ y.2)
  | l :: ls => (x.1 ++ (x.2 ++ l) :: ls, y.2)

theorem jsSplitNl_eq_splitCR (s : List Char) :
    jsSplitNl s = (splitCR s).1 ++ [(splitCR s).2] := by
  induction s with
  | nil => rfl
  | cons c cs ih =>
    by_cases hc : c = '\n'
    · subst hc
      simp [jsSplitNl, splitCR, ih]
    · cases hcs : (splitCR cs).1 with
      | nil =>
        have hns : jsSplitNl cs = [(splitCR cs).2] := by rw [ih, hcs]; rfl
        simp [jsSplitNl, hc, hns, splitCR, hcs]
      | cons l ls =>
        have hns : jsSplitNl cs = (l :: ls) ++ [(splitCR cs).2] := by rw [ih, hcs]
        simp [jsSplitNl, hc, hns, splitCR, hcs]

theorem splitCR_snd_no_newline (s : List Char) : '\n' ∉ (splitCR s).2 := by
  induction s with
  | nil => simp [splitCR]
  | cons c cs ih =>
    by_cases hc : c = '\n'
    · subst hc
      simpa [splitCR] using ih
    · cases hcs : (splitCR cs).1 with
      | nil =>
        simp only [splitCR, hcs, if_neg hc]
        simp only [List.mem_cons, not_or]
        exact ⟨fun he => hc he.symm, ih⟩
      | cons l ls =>
        simp only [splitCR, hcs, if_neg hc]
        exact ih

theorem splitCR_of_no_newline {s : List Char} (h : '\n' ∉ s) :
    splitCR s = ([], s) := by
  induction s with
  | nil => rfl
  | cons c cs ih =>
    simp only [List.mem_cons, not_or] at h
    have hc : ¬ c = '\n' := fun he => h.1 he.symm
    have ihe := ih h.2
    simp [splitCR, hc, ihe]

theorem splitCR_append (x y : List Char) :
    splitCR (x ++ y) = framerGlue (splitCR x) (splitCR y) := by
  induction x with
  | nil =>
    rw [List.nil_append]
    cases hL : (splitCR y).1 with
    | nil =>
      have hg : framerGlue (splitCR []) (splitCR y) = ([], (splitCR y).2) := by
        simp [framerGlue, splitCR, hL]
      rw [hg]
      exact Prod.ext hL rfl
    | cons l ls =>
      have hg : framerGlue (splitCR []) (splitCR y) = (l :: ls, (splitCR y).2) := by
        simp [framerGlue, splitCR, hL]
      rw [hg]
      exact Prod.ext hL rfl
  | cons c cs ih =>
    by_cases hc : c = '\n'
    · subst hc
      rw [List.cons_append,
        show splitCR ('\n' :: (cs ++ y))
            = ([] :: (splitCR (cs ++ y)).1, (splitCR (cs ++ y)).2) by simp [splitCR],
        show splitCR ('\n' :: cs) = ([] :: (splitCR cs).1, (splitCR cs).2) by
          simp [splitCR],
        ih]
      cases hL : (splitCR y).1 with
      | nil => simp [framerGlue, hL]
      | cons l ls => simp [framerGlue, hL]
    · have hstep : ∀ t : List Char, splitCR (c :: t) =
          (match (splitCR t).1 with
           | [] => ([], c :: (splitCR t).2)
           | l :: ls => ((c :: l) :: ls, (splitCR t).2)) := by
        intro t
        simp [splitCR, hc]
      rw [List.cons_append, hstep, hstep, ih]
      cases hcs : (splitCR cs).1 with
      | nil =>
        cases hL : (splitCR y).1 with
        | nil => simp [framerGlue, hcs, hL]
        | cons l ls => simp [framerGlue, hcs, hL]
      | cons m ms =>
        cases hL : (splitCR y).1 with
        | nil => simp [framerGlue, hcs, hL]
        | cons l ls => simp [framerGlue, hcs, hL]

/-- `onData` in terms of the (complete, remainder) split. -/
theorem onData_eq_splitCR {α : Type} (parse : List Char → Option α)
    (fr : Framer α) (chunk : List Char) :
    onData parse fr chunk =
      { buffer := (splitCR (fr.buffer ++ chunk)).2,
        delivered := fr.delivered ++ (splitCR (fr.buffer ++ chunk)).1.filterMap
          (fun line => if isBlankLine line then none else parse line) } := by
  rw [onData, jsSplitNl_eq_splitCR, List.dropLast_concat, List.getLastD_concat]

/-- Splitting one chunk in two delivers the same messages to the same final
accumulator. -/
theorem onData_append {α : Type} (parse : List Char → Option α)
    (fr : Framer α) (c1 c2 : List Char) :
    onData parse fr (c1 ++ c2) = onData parse (onData parse fr c1) c2 := by
  rw [onData_eq_splitCR, onData_eq_splitCR, onData_eq_splitCR]
  simp only
  rw [← List.append_assoc, splitCR_append (fr.buffer ++ c1) c2,
    splitCR_append (splitCR (fr.buffer ++ c1)).2 c2,
    splitCR_of_no_newline (splitCR_snd_no_newline (fr.buffer ++ c1))]
  cases hL : (splitCR c2).1 with
  | nil => simp [framerGlue, hL]
  | cons l ls => simp [framerGlue, hL, List.filterMap_append]

theorem runFramer_join_of_ne_nil {α : Type} (parse : List Char → Option α) :
    ∀ (chunks : List (List Char)) (fr : Framer α), chunks ≠ [] →
      runFramer parse fr chunks = onData parse fr chunks.flatten
  | [], _, h => absurd rfl h
  | [c], fr, _ => by simp [runFramer, List.flatten]
  | c :: c2 :: cs, fr, _ => by
    have ih := runFramer_join_of_ne_nil parse (c2 :: cs) (onData parse fr c) (by simp)
    calc runFramer parse fr (c :: c2 :: cs)
        = runFramer parse (onData parse fr c) (c2 :: cs) := by simp [runFramer]
      _ = onData parse (onData parse fr c) ((c2 :: cs).flatten) := ih
      _ = onData parse fr (c ++ (c2 :: cs).flatten) := (onData_append parse fr c _).symm
      _ = onData parse fr ((c :: c2 :: cs).flatten) := by simp

/-- Claim C3: the framer accumulates chunks, splits on newline, delivers every
complete fragment that parses (a fragment that fails to parse is dropped
without affecting any other fragment) and retains the final fragment as the
new accumulator — hence processing any chunking of a byte stream delivers
exactly the messages of the whole stream, in order; in particular the chunks
`{"a":1}\n{"b":2` then `}\n` yield exactly the two messages, in order, with
nothing lost or duplicated, and a malformed line does not affect its
neighbours. -/
theorem C3_framer_chunk_invariance_and_example :
    (∀ (α : Type) (parse : List Char → Option α) (chunks : List (List Char)),
        runFramer parse emptyFramer chunks = onData parse emptyFramer chunks.flatten)
    ∧ runFramer jsonParse emptyFramer
        ["\x7b\"a\":1\x7d\n\x7b\"b\":2".toList, "\x7d\n".toList]
      = { buffer := [],
          delivered := [Json.obj [("a", Json.num 1)], Json.obj [("b", Json.num 2)]] }
    ∧ (runFramer jsonParse emptyFramer ["x\n\x7b\"a\":1\x7d\n".toList]).delivered
      = [Json.obj [("a", Json.num 1)]] := by
  refine ⟨fun α parse chunks => ?_, rfl, rfl⟩
  cases chunks with
  | nil => rfl
  | cons c cs => exact runFramer_join_of_ne_nil parse (c :: cs) emptyFramer (by simp)

/-! ## Exactly-once settlement (RequestCorrelator) -/

/-- The correlator invariant over one instance's pending map, settlement
record and token allocator: keys and tokens are distinct, no live entry's
token has been settled, and tokens never exceed the allocator. -/
def CorrInvOn (pending : List (Nat × Nat)) (settled : List (Nat × Outcome))
    (next : Nat) : Prop :=
  (pending.map Prod.fst).Nodup ∧
  (pending.map Prod.snd).Nodup ∧
  (settled.map Prod.fst).Nodup ∧
  (∀ t ∈ pending.map Prod.snd, t ∉ settled.map Prod.fst) ∧
  (∀ t ∈ pending.map Prod.snd, t < next) ∧
  (∀ t ∈ settled.map Prod.fst, t < next)

def CorrInv (s : ServerInstance) : Prop :=
  CorrInvOn s.pendingRequests s.settled s.nextToken

theorem corrInvOn_settle {pending : List (Nat × Nat)}
    {settled : List (Nat × Outcome)} {next id tok : Nat} (o : Outcome)
    (h : pending.lookup id = some tok) (hinv : CorrInvOn pending settled next) :
    CorrInvOn (jsMapDelete pending id) (settled ++ [(tok, o)]) next := by
  obtain ⟨hk, ht, hs, hdisj, hbp, hbs⟩ := hinv
  have hmem : (id, tok) ∈ pending := mem_of_lookup_eq_some h
  have htokmem : tok ∈ pending.map Prod.snd := List.mem_map_of_mem Prod.snd hmem
  have hsub : (jsMapDelete pending id).Sublist pending := jsMapDelete_sublist pending id
  have hnotok : tok ∉ (jsMapDelete pending id).map Prod.snd := by
    intro htin
    rcases List.mem_map.mp htin with ⟨q, hq, hq2⟩
    have hqp : q ∈ pending := hsub.subset hq
    have hqe : q = (id, tok) :=
      List.inj_on_of_nodup_map ht hqp hmem hq2
    rw [hqe] at hq
    exact not_mem_jsMapDelete_of_keys_nodup hk id tok hq
  refine ⟨List.Nodup.sublist (hsub.map Prod.fst) hk,
    List.Nodup.sublist (hsub.map Prod.snd) ht, ?_, ?_, ?_, ?_⟩
  · rw [List.map_append, List.nodup_append]
    refine ⟨hs, by simp, ?_⟩
    intro a ha hb
    simp only [List.map_cons, List.map_nil, List.mem_singleton] at hb
    subst hb
    exact hdisj a htokmem ha
  · intro t htin
    have htp : t ∈ pending.map Prod.snd := (hsub.map Prod.snd).subset htin
    rw [List.map_append, List.mem_append]
    rintro (hin | hin)
    · exact hdisj t htp hin
    · simp only [List.map_cons, List.map_nil, List.mem_singleton] at hin
      subst hin
      exact hnotok htin
  · intro t htin
    exact hbp t ((hsub.map Prod.snd).subset htin)
  · intro t htin
    rw [List.map_append, List.mem_append] at htin
    rcases htin with hin | hin
    · exact hbs t hin
    · simp only [List.map_cons, List.map_nil, List.mem_singleton] at hin
      subst hin
      exact hbp t htokmem

theorem corrInvOn_register {pending : List (Nat × Nat)}
    {settled : List (Nat × Outcome)} {next id : Nat}
    (h : pending.lookup id = none) (hinv : CorrInvOn pending settled next) :
    CorrInvOn (pending ++ [(id, next)]) settled (next + 1) := by
  obtain ⟨hk, ht, hs, hdisj, hbp, hbs⟩ := hinv
  refine ⟨?_, ?_, hs, ?_, ?_, ?_⟩
  · rw [List.map_append, List.nodup_append]
    refine ⟨hk, by simp, ?_⟩
    intro a ha hb
    simp only [List.map_cons, List.map_nil, List.mem_singleton] at hb
    subst hb
    exact not_mem_keys_of_lookup_eq_none h ha
  · rw [List.map_append, List.nodup_append]
    refine ⟨ht, by simp, ?_⟩
    intro a ha hb
    simp only [List.map_cons, List.map_nil, List.mem_singleton] at hb
    subst hb
    exact absurd (hbp _ ha) (by omega)
  · intro t htin
    rw [List.map_append, List.mem_append] at htin
    rcases htin with hin | hin
    · exact hdisj t hin
    · simp only [List.map_cons, List.map_nil, List.mem_singleton] at hin
      subst hin
      intro hc
      exact absurd (hbs _ hc) (by omega)
  · intro t htin
    rw [List.map_append, List.mem_append] at htin
    rcases htin with hin | hin
    · exact Nat.lt_succ_of_lt (hbp t hin)
    · simp only [List.map_cons, List.map_nil, List.mem_singleton] at hin
      omega
  · intro t htin
    exact Nat.lt_succ_of_lt (hbs t htin)

theorem corrInvOn_exit {pending : List (Nat × Nat)}
    {settled : List (Nat × Outcome)} {next : Nat} (r : RejectReason)
    (hinv : CorrInvOn pending settled next) :
    CorrInvOn []
      (settled ++ pending.map (fun p => (p.2, Outcome.rejected r))) next := by
  obtain ⟨hk, ht, hs, hdisj, hbp, hbs⟩ := hinv
  have hmm : (pending.map (fun p : Nat × Nat => (p.2, Outcome.rejected r))).map Prod.fst
      = pending.map Prod.snd := by
    rw [List.map_map]
    rfl
  refine ⟨by simp, by simp, ?_, by simp, by simp, ?_⟩
  · rw [List.map_append, hmm, List.nodup_append]
    exact ⟨hs, ht, fun a ha hb => hdisj a hb ha⟩
  · intro t htin
    rw [List.map_append, hmm, List.mem_append] at htin
    rcases htin with hin | hin
    · exact hbs t hin
    · exact hbp t hin

theorem sendRequestInternal_fields (s : ServerInstance) (request : JSONRPCMessage) :
    (sendRequestInternal s request).1.pendingRequests
        = jsMapSet s.pendingRequests (request.id.getD s.requestIdCounter) s.nextToken
    ∧ (sendRequestInternal s request).1.settled = s.settled
    ∧ (sendRequestInternal s request).1.nextToken = s.nextToken + 1 := by
  cases hr : request.id <;> simp [sendRequestInternal, hr]

theorem corrInv_step {s s' : ServerInstance} {e : CorrEvent}
    (hstep : stepEvent s e = some s') (hinv : CorrInv s) : CorrInv s' := by
  cases e with
  | register request =>
    simp only [stepEvent] at hstep
    by_cases hc : (s.pendingRequests.lookup (request.id.getD s.requestIdCounter)).isSome
    · rw [if_pos hc] at hstep
      exact absurd hstep (by simp)
    · rw [if_neg hc] at hstep
      have hnone : s.pendingRequests.lookup (request.id.getD s.requestIdCounter) = none :=
        Option.not_isSome_iff_eq_none.mp hc
      have hfields := sendRequestInternal_fields s request
      have hs' : s' = (sendRequestInternal s request).1 := by
        injection hstep with h
        exact h.symm
      rw [CorrInv, hs', hfields.1, hfields.2.1, hfields.2.2,
        jsMapSet_of_lookup_none _ hnone]
      exact corrInvOn_register hnone hinv
  | inbound message =>
    simp only [stepEvent, Option.some.injEq] at hstep
    subst hstep
    cases hid : message.id with
    | none =>
      rw [CorrInv, handleStdoutMessage]
      simpa [hid] using hinv
    | some id =>
      cases hlk : s.pendingRequests.lookup id with
      | none =>
        rw [CorrInv, handleStdoutMessage]
        simpa [hid, hlk] using hinv
      | some tok =>
        rw [CorrInv, handleStdoutMessage]
        simpa [hid, hlk] using corrInvOn_settle (Outcome.fulfilled message) hlk hinv
  | timerFires id =>
    simp only [stepEvent] at hstep
    by_cases hc : (s.pendingRequests.lookup id).isSome
    · rw [if_pos hc] at hstep
      cases hlk : s.pendingRequests.lookup id with
      | none => rw [hlk] at hc; exact absurd hc (by simp)
      | some tok =>
        have hs' : s' = timeoutFires s id := by
          injection hstep with h
          exact h.symm
        rw [CorrInv, hs', timeoutFires, hlk]
        simpa using corrInvOn_settle (Outcome.rejected (.timeout s.name)) hlk hinv
    · rw [if_neg hc] at hstep
      exact absurd hstep (by simp)
  | procExit =>
    simp only [stepEvent, Option.some.injEq] at hstep
    subst hstep
    rw [CorrInv, handleProcessExit]
    simpa using corrInvOn_exit (.unexpectedExit s.name) hinv

theorem corrInv_runEvents {s s' : ServerInstance} {events : List CorrEvent}
    (hrun : runEvents s events = some s') (hinv : CorrInv s) : CorrInv s' := by
  induction events generalizing s with
  | nil =>
    simp only [runEvents, Option.some.injEq] at hrun
    subst hrun
    exact hinv
  | cons e es ih =>
    simp only [runEvents] at hrun
    cases hstep : stepEvent s e with
    | none =>
      rw [hstep] at hrun
      exact absurd hrun (by simp)
    | some s1 =>
      rw [hstep] at hrun
      exact ih hrun (corrInv_step hstep hinv)

/-- Claim C1: for every instance and every request id, the pending entry is
settled at most once: in every reachable state, no token has two settlements
and no live entry's token is already settled; moreover a response whose id has
no pending entry changes nothing but the log, and an exit sweep over an empty
pending map adds no settlement. -/
theorem C1_settled_at_most_once (name : String) (config : ServerConfig)
    (events : List CorrEvent) (server : ServerInstance)
    (hrun : runEvents (createInstance name config) events = some server) :
    ((server.settled.map Prod.fst).Nodup
      ∧ ∀ t ∈ server.pendingRequests.map Prod.snd, t ∉ server.settled.map Prod.fst)
    ∧ (∀ (message : JSONRPCMessage) (id : Nat), message.id = some id →
        server.pendingRequests.lookup id = none →
        (handleStdoutMessage server message).pendingRequests = server.pendingRequests
        ∧ (handleStdoutMessage server message).settled = server.settled)
    ∧ (server.pendingRequests = [] →
        (handleProcessExit server).settled = server.settled) := by
  have hinv : CorrInv server :=
    corrInv_runEvents hrun (by simp [CorrInv, CorrInvOn, createInstance])
  obtain ⟨hk, ht, hs, hdisj, hbp, hbs⟩ := hinv
  refine ⟨⟨hs, hdisj⟩, ?_, ?_⟩
  · intro message id hid hlk
    rw [handleStdoutMessage]
    simp [hid, hlk]
  · intro hp
    rw [handleProcessExit]
    simp [hp]

theorem C1_witness :
    runEvents (createInstance "calculator" calcConfig) c1Trace = some c1Final
    ∧ (c1Final.settled.map Prod.fst).Nodup
    ∧ c1Final.settled.map Prod.fst = [0, 1] :=
  ⟨rfl, (C1_settled_at_most_once "calculator" calcConfig c1Trace c1Final rfl).1.1, rfl⟩


/-- Computed form of `startServerLaunch` for a correlated reply (`id = 1`):
handshake failure registers an `error` instance with capabilities unset;
success registers a `ready` instance carrying the reply's capabilities, the
`initialized` notification last in its log. -/
theorem startServerLaunch_spec (mgr : ManagerState) (name : String)
    (config : ServerConfig) (initReply : JSONRPCMessage)
    (hc : mgr.configs.lookup name = some config)
    (hid : initReply.id = some 1) :
    startServerLaunch mgr name initReply =
      match initReply.error with
      | some err =>
        ({ mgr with servers := (jsMapSet mgr.servers name (handshakeErrorInstance name config initReply)) },
          .error (.initializeFailed ("Initialize failed: " ++ err.message)))
      | none =>
        ({ mgr with servers := (jsMapSet mgr.servers name (handshakeReadyInstance name config initReply)) },
          .ok ()) := by
  have hreg : (sendRequestInternal
      { createInstance name config with requestIdCounter := 1 + 1 }
      (initializeRequest 1)).1
      = { name := name, config := config, status := .initializing,
          messageBuffer := [logEntry .request (initializeRequest 1)],
          pendingRequests := [(1, 0)], requestIdCounter := 2,
          serverCapabilities := none, settled := [], nextToken := 1 } := by
    rfl
  have hdeliver : handleStdoutMessage
      { name := name, config := config, status := .initializing,
        messageBuffer := [logEntry .request (initializeRequest 1)],
        pendingRequests := [(1, 0)], requestIdCounter := 2,
        serverCapabilities := none, settled := [], nextToken := 1 } initReply
      = { name := name, config := config, status := .initializing,
          messageBuffer := [logEntry .request (initializeRequest 1),
            logEntry .response initReply],
          pendingRequests := [], requestIdCounter := 2,
          serverCapabilities := none,
          settled := [(0, .fulfilled initReply)], nextToken := 1 } := by
    rw [handleStdoutMessage]
    simp [hid, logMessage, MAX_MESSAGES, jsMapDelete, List.lookup]
  have hcnt : (createInstance name config).requestIdCounter = 1 := rfl
  have hrid : (initializeRequest 1).id = some 1 := rfl
  simp only [startServerLaunch, hc, hcnt]
  rw [hreg, hdeliver, hid, hrid, if_pos rfl]
  simp only [handshakeErrorInstance, handshakeReadyInstance]
  cases herr : initReply.error with
  | some err => rfl
  | none =>
    cases hcap : resultCapabilities initReply with
    | some caps => simp [logMessage, MAX_MESSAGES]
    | none => simp [logMessage, MAX_MESSAGES]


/-- Claim C5: a `start(name)` whose `initialize` reply carries an error
rejects, leaves the retained instance with status `error` and capabilities
unset; one whose reply succeeds writes the uncorrelated `initialized`
notification (last in the log) and leaves status `ready` with the
capabilities carried in the reply. -/
theorem C5_handshake_outcomes (mgr : ManagerState) (name : String)
    (config : ServerConfig) (initReply : JSONRPCMessage)
    (hc : mgr.configs.lookup name = some config)
    (hnr : ∀ s, mgr.servers.lookup name = some s → s.status ≠ .ready)
    (hid : initReply.id = some 1) :
    (∀ err, initReply.error = some err →
        (startServer mgr name initReply).2
            = .error (.initializeFailed ("Initialize failed: " ++ err.message))
        ∧ (startServer mgr name initReply).1.servers.lookup name
            = some (handshakeErrorInstance name config initReply)
        ∧ (handshakeErrorInstance name config initReply).status = .error
        ∧ (handshakeErrorInstance name config initReply).serverCapabilities = none)
    ∧ (initReply.error = none →
        (startServer mgr name initReply).2 = .ok ()
        ∧ (startServer mgr name initReply).1.servers.lookup name
            = some (handshakeReadyInstance name config initReply)
        ∧ (handshakeReadyInstance name config initReply).status = .ready
        ∧ (handshakeReadyInstance name config initReply).serverCapabilities
            = resultCapabilities initReply
        ∧ (handshakeReadyInstance name config initReply).messageBuffer.getLast?
            = some (logEntry .request initializedNotification)) := by
  have hlaunch : startServer mgr name initReply = startServerLaunch mgr name initReply := by
    cases hs : mgr.servers.lookup name with
    | none => simp [startServer, hs]
    | some s => simp [startServer, hs, hnr s hs]
  rw [hlaunch, startServerLaunch_spec mgr name config initReply hc hid]
  constructor
  · intro err herr
    rw [herr]
    exact ⟨rfl, lookup_jsMapSet_self _ _ _, rfl, rfl⟩
  · intro herr
    rw [herr]
    exact ⟨rfl, lookup_jsMapSet_self _ _ _, rfl, rfl, rfl⟩

/-- Claim C10: a name with no configuration entry and no ready instance makes
`startServer` (and `sendRequest` via auto-start) reject with a
configuration-not-found error, leaving the manager state -- in particular the
instance table -- completely unchanged. -/
theorem C10_missing_config_rejects (mgr : ManagerState) (name : String)
    (request initReply : JSONRPCMessage)
    (hc : mgr.configs.lookup name = none)
    (hnr : ∀ s, mgr.servers.lookup name = some s → s.status ≠ .ready) :
    startServer mgr name initReply = (mgr, .error (.configNotFound name))
    ∧ sendRequest mgr name request initReply = (mgr, .error (.configNotFound name)) := by
  have hlaunch2 : startServerLaunch mgr name initReply
      = (mgr, .error (.configNotFound name)) := by
    simp [startServerLaunch, hc]
  have hstart : startServer mgr name initReply = (mgr, .error (.configNotFound name)) := by
    cases hs : mgr.servers.lookup name with
    | none => simp [startServer, hs, hlaunch2]
    | some s => simp [startServer, hs, hnr s hs, hlaunch2]
  refine ⟨hstart, ?_⟩
  cases hs : mgr.servers.lookup name with
  | none => simp [sendRequest, hs, hstart]
  | some s => simp [sendRequest, hs, hnr s hs, hstart]

/-- Claim C9: `sendRequest` against an instance whose status is not `ready`
(`error`/`stopped`) does not fail fast: it runs `startServer`, which registers
a fresh instance (counter restarted, handshake-only log, empty pending map,
capabilities from the new reply) replacing the old record, and the request is
then registered on that fresh instance (getting id 2); the outcome is the
same as if the old record had been deleted first. -/
theorem C9_autorestart_fresh_instance (mgr : ManagerState) (name : String)
    (old : ServerInstance) (config : ServerConfig)
    (request initReply : JSONRPCMessage)
    (hold : mgr.servers.lookup name = some old)
    (hnotready : old.status ≠ .ready)
    (hc : mgr.configs.lookup name = some config)
    (hid : initReply.id = some 1)
    (herr : initReply.error = none)
    (hreqid : request.id = none)
    (hnd : (mgr.servers.map Prod.fst).Nodup) :
    (sendRequest mgr name request initReply).2 = .ok 2
    ∧ (sendRequest mgr name request initReply).1.servers.lookup name
        = some (sendRequestInternal (handshakeReadyInstance name config initReply) request).1
    ∧ (sendRequestInternal (handshakeReadyInstance name config initReply) request).1.requestIdCounter = 3
    ∧ (sendRequestInternal (handshakeReadyInstance name config initReply) request).1.pendingRequests = [(2, 1)]
    ∧ (sendRequestInternal (handshakeReadyInstance name config initReply) request).1.serverCapabilities
        = resultCapabilities initReply
    ∧ (sendRequestInternal (handshakeReadyInstance name config initReply) request).1.status = .ready
    ∧ (sendRequestInternal (handshakeReadyInstance name config initReply) request).1.messageBuffer
        = [logEntry .request (initializeRequest 1), logEntry .response initReply,
           logEntry .request initializedNotification,
           logEntry .request { request with id := some 2 }]
    ∧ (sendRequest mgr name request initReply).2
        = (sendRequest { mgr with servers := jsMapDelete mgr.servers name } name request initReply).2
    ∧ (sendRequest mgr name request initReply).1.servers.lookup name
        = (sendRequest { mgr with servers := jsMapDelete mgr.servers name } name
            request initReply).1.servers.lookup name := by
  have hstart : startServer mgr name initReply
      = ({ mgr with servers := jsMapSet mgr.servers name (handshakeReadyInstance name config initReply) }, .ok ()) := by
    have h1 : startServer mgr name initReply = startServerLaunch mgr name initReply := by
      simp [startServer, hold, hnotready]
    rw [h1, startServerLaunch_spec mgr name config initReply hc hid, herr]
  have hsr2 : (sendRequestInternal (handshakeReadyInstance name config initReply) request).2 = 2 := by
    simp [sendRequestInternal, hreqid, handshakeReadyInstance]
  have key : sendRequest mgr name request initReply
      = ({ mgr with servers := (jsMapSet (jsMapSet mgr.servers name (handshakeReadyInstance name config initReply)) name (sendRequestInternal (handshakeReadyInstance name config initReply) request).1) },
         .ok 2) := by
    simp only [sendRequest, hold, hnotready, ne_eq, not_false_eq_true,
      hstart, lookup_jsMapSet_self, hsr2]
    simp
  -- the old record deleted: same handshake, same result fields
  have holddel : (jsMapDelete mgr.servers name).lookup name = none :=
    lookup_jsMapDelete_self hnd name
  have hstartdel : startServer { mgr with servers := jsMapDelete mgr.servers name } name initReply
      = ({ mgr with servers := (jsMapSet (jsMapDelete mgr.servers name) name (handshakeReadyInstance name config initReply)) }, .ok ()) := by
    have h1 : startServer { mgr with servers := jsMapDelete mgr.servers name } name initReply
        = startServerLaunch { mgr with servers := jsMapDelete mgr.servers name } name initReply := by
      simp [startServer, holddel]
    rw [h1, startServerLaunch_spec { mgr with servers := jsMapDelete mgr.servers name }
      name config initReply hc hid, herr]
  have keydel : sendRequest { mgr with servers := jsMapDelete mgr.servers name } name request initReply
      = ({ mgr with servers := (jsMapSet (jsMapSet (jsMapDelete mgr.servers name) name (handshakeReadyInstance name config initReply)) name (sendRequestInternal (handshakeReadyInstance name config initReply) request).1) },
         .ok 2) := by
    simp only [sendRequest, holddel, hstartdel, lookup_jsMapSet_self, hsr2]
    simp
  refine ⟨by rw [key], by rw [key]; exact lookup_jsMapSet_self _ _ _, ?_, ?_, ?_, ?_, ?_, ?_, ?_⟩
  · simp [sendRequestInternal, hreqid, handshakeReadyInstance]
  · simp [sendRequestInternal, hreqid, handshakeReadyInstance, jsMapSet]
  · simp [sendRequestInternal, hreqid, handshakeReadyInstance]
  · simp [sendRequestInternal, hreqid, handshakeReadyInstance]
  · simp [sendRequestInternal, hreqid, handshakeReadyInstance, logMessage, MAX_MESSAGES]
  · rw [key, keydel]
  · rw [key, keydel]
    simp only [lookup_jsMapSet_self]

/-- Claim C2, counterexample: with an instance holding one pending request and
a process that does not exit during the 1 s grace window (it survives SIGTERM,
forcing the SIGKILL escalation), `stopServer` resolves with the record removed
but the pending request not yet rejected -- no rejection is recorded in the
instance state observed at the moment `stop()` resolves. -/
theorem C2_claim_counterexample :
    c2Mgr.servers.lookup "weather" = some c6Server
    ∧ c6Server.pendingRequests ≠ []
    ∧ (stopServer c2Mgr "weather" false).state.servers.lookup "weather" = none
    ∧ ¬ (∀ p ∈ c6Server.pendingRequests, ∃ reason : RejectReason,
          ∃ inst, (stopServer c2Mgr "weather" false).resolvedInstance = some inst
            ∧ (p.2, Outcome.rejected reason) ∈ inst.settled) := by
  refine ⟨rfl, by simp [c6Server], rfl, ?_⟩
  intro hall
  obtain ⟨reason, inst, hinst, hmem⟩ := hall (5, 0) (by simp [c6Server])
  have h2 : some c6Server = some inst := hinst
  injection h2 with h3
  rw [← h3] at hmem
  simp [c6Server] at hmem

/-- Claim C2 (amended): `stop(name)` removes the Instance record; every
pending request is rejected with the stopped/unexpected-exit classification --
before `stop()` resolves whenever the process exits within the 1 s grace
window, and otherwise only when the deferred exit event of the SIGKILL
escalation fires, after `stop()` has already resolved. -/
theorem C2_stop_rejects_amended (mgr : ManagerState) (name : String)
    (server : ServerInstance) (g : Bool)
    (hold : mgr.servers.lookup name = some server)
    (hnd : (mgr.servers.map Prod.fst).Nodup)
    (hstopped : server.status = .stopped → server.pendingRequests = []) :
    (stopServer mgr name g).state.servers.lookup name = none
    ∧ (g = true →
        (stopServer mgr name g).resolvedInstance = some (handleProcessExit server)
        ∧ ∀ p ∈ server.pendingRequests,
            (p.2, Outcome.rejected (.unexpectedExit server.name))
              ∈ (handleProcessExit server).settled)
    ∧ ∃ fin, afterDeferredExit (stopServer mgr name g) = some fin
        ∧ ∀ p ∈ server.pendingRequests,
            (p.2, Outcome.rejected (.unexpectedExit server.name)) ∈ fin.settled := by
  have hmemexit : ∀ p ∈ server.pendingRequests,
      (p.2, Outcome.rejected (.unexpectedExit server.name))
        ∈ (handleProcessExit server).settled := by
    intro p hp
    rw [handleProcessExit]
    simp only [List.mem_append]
    right
    exact List.mem_map_of_mem _ hp
  have hdel : (jsMapDelete mgr.servers name).lookup name = none :=
    lookup_jsMapDelete_self hnd name
  cases g with
  | true =>
    have hs : stopServer mgr name true
        = ⟨{ mgr with servers := jsMapDelete mgr.servers name },
            some (handleProcessExit server), false⟩ := by
      simp [stopServer, hold, handleProcessExit]
    refine ⟨by rw [hs]; exact hdel, fun _ => ⟨by rw [hs], hmemexit⟩, ?_⟩
    refine ⟨handleProcessExit server, ?_, hmemexit⟩
    rw [hs, afterDeferredExit]
    rfl
  | false =>
    have hs : stopServer mgr name false
        = ⟨{ mgr with servers := jsMapDelete mgr.servers name },
            some server, if server.status = .stopped then false else true⟩ := by
      simp [stopServer, hold]
    refine ⟨by rw [hs]; exact hdel, fun habs => Bool.noConfusion habs, ?_⟩
    by_cases hstat : server.status = .stopped
    · refine ⟨server, ?_, ?_⟩
      · rw [hs, afterDeferredExit]
        simp [hstat]
      · intro p hp
        rw [hstopped hstat] at hp
        cases hp
    · refine ⟨handleProcessExit server, ?_, hmemexit⟩
      rw [hs, afterDeferredExit]
      simp [hstat]

theorem C2_witness :
    c2Mgr.servers.lookup "weather" = some c6Server
    ∧ (stopServer c2Mgr "weather" true).state.servers.lookup "weather" = none
    ∧ (stopServer c2Mgr "weather" true).resolvedInstance
        = some (handleProcessExit c6Server)
    ∧ (0, Outcome.rejected (.unexpectedExit "weather"))
        ∈ (handleProcessExit c6Server).settled :=
  ⟨rfl,
    (C2_stop_rejects_amended c2Mgr "weather" c6Server true rfl (by decide)
      (fun h => ServerStatus.noConfusion h)).1,
    ((C2_stop_rejects_amended c2Mgr "weather" c6Server true rfl (by decide)
      (fun h => ServerStatus.noConfusion h)).2.1 rfl).1,
    ((C2_stop_rejects_amended c2Mgr "weather" c6Server true rfl (by decide)
      (fun h => ServerStatus.noConfusion h)).2.1 rfl).2 (5, 0) (by simp [c6Server])⟩

theorem C5_witness :
    c5Mgr.configs.lookup "calculator" = some calcConfig
    ∧ errInitReply.id = some 1
    ∧ (startServer c5Mgr "calculator" errInitReply).2
        = .error (.initializeFailed "Initialize failed: unsupported protocol")
    ∧ okInitReply.error = none
    ∧ (startServer c5Mgr "calculator" okInitReply).2 = .ok () :=
  ⟨rfl, rfl,
    ((C5_handshake_outcomes c5Mgr "calculator" calcConfig errInitReply rfl
        (fun _ hs => Option.noConfusion hs) rfl).1
      { code := -32600, message := "unsupported protocol" } rfl).1,
    rfl,
    ((C5_handshake_outcomes c5Mgr "calculator" calcConfig okInitReply rfl
        (fun _ hs => Option.noConfusion hs) rfl).2 rfl).1⟩

theorem C9_witness :
    c9Mgr.servers.lookup "calculator" = some c9Old
    ∧ c9Old.status ≠ .ready
    ∧ (sendRequest c9Mgr "calculator" toolsListRequest okInitReply).2 = .ok 2
    ∧ (sendRequestInternal
        (handshakeReadyInstance "calculator" calcConfig okInitReply)
        toolsListRequest).1.requestIdCounter = 3 :=
  ⟨rfl, by decide,
    (C9_autorestart_fresh_instance c9Mgr "calculator" c9Old calcConfig
      toolsListRequest okInitReply rfl (by decide) rfl rfl rfl rfl (by decide)).1,
    (C9_autorestart_fresh_instance c9Mgr "calculator" c9Old calcConfig
      toolsListRequest okInitReply rfl (by decide) rfl rfl rfl rfl (by decide)).2.2.1⟩

theorem C10_witness :
    c10Mgr.configs.lookup "calculator" = none
    ∧ startServer c10Mgr "calculator" okInitReply
        = (c10Mgr, .error (.configNotFound "calculator"))
    ∧ sendRequest c10Mgr "calculator" toolsListRequest okInitReply
        = (c10Mgr, .error (.configNotFound "calculator")) :=
  ⟨rfl,
    (C10_missing_config_rejects c10Mgr "calculator" toolsListRequest okInitReply rfl
      (fun s hs => by
        have h2 : some c9Old = some s := hs
        injection h2 with h3
        rw [← h3]
        decide)).1,
    (C10_missing_config_rejects c10Mgr "calculator" toolsListRequest okInitReply rfl
      (fun s hs => by
        have h2 : some c9Old = some s := hs
        injection h2 with h3
        rw [← h3]
        decide)).2⟩
